import Mathlib

/-!
Shallow embedding of `utils/client.go` from the kubecfg repository.

The file models two components:

* `memcachedDiscoveryClient`: an in-memory caching decorator over a cluster
  API discovery client.  Its mutable fields become a `MemState` record that
  every operation threads explicitly.  The underlying discovery client is
  modelled as `Underlying`, a family of response streams indexed by the
  number of calls made so far; `MemState` carries the call counters, so
  "the underlying client was not invoked" is expressed as "the counter did
  not change".  Go results of shape `(ptr, err)` become pairs
  `Option value × Option Err`, where `none` in the first component is a nil
  pointer.

* `ClientPool` / `ClientForResource` / `serverResourceForGroupVersionKind`:
  the pool that builds dynamic clients and the resolution of an object to
  its REST resource.  External library calls (`dynamic.NewForConfig`, the
  discovery interface) are parameters of the Lean functions.  A Go nil
  pointer dereference (panic) is modelled by an outer `Option`: `none` is a
  panic.
-/

namespace KubecfgClient

/-- Opaque payload of `metav1.APIGroupList`; its contents are never inspected
by the code under study. -/
structure APIGroupList where
  id : Nat
deriving DecidableEq

/-- Opaque payload of `openapi_v2.Document`. -/
structure Document where
  id : Nat
deriving DecidableEq

/-- Opaque payload of `openapi.Resources` (the `schemas` map values). -/
structure Resources where
  id : Nat
deriving DecidableEq

/-- Opaque payload of `version.Info`. -/
structure VersionInfo where
  id : Nat
deriving DecidableEq

/-- Opaque payload of `rest.Interface`, returned by `RESTClient`. -/
structure RESTIface where
  id : Nat
deriving DecidableEq

/-- Opaque payload of `dynamic.Interface`, produced by `dynamic.NewForConfig`. -/
structure DynClient where
  id : Nat
deriving DecidableEq

/-- Go `schema.GroupVersion`. -/
structure GroupVersion where
  group : String
  version : String
deriving DecidableEq

/-- Go `schema.GroupVersionKind`. -/
structure GroupVersionKind where
  group : String
  version : String
  kind : String
deriving DecidableEq

/-- Go `GroupVersionKind.GroupVersion()`. -/
def GroupVersionKind.groupVersion (gvk : GroupVersionKind) : GroupVersion :=
  ⟨gvk.group, gvk.version⟩

/-- Go `schema.GroupVersion.String()`: `version` for the legacy group, otherwise
`group/version`. -/
def GroupVersion.toString (gv : GroupVersion) : String :=
  if gv.group = "" then gv.version else gv.group ++ "/" ++ gv.version

/-- Go `schema.GroupVersionResource`. -/
structure GroupVersionResource where
  group : String
  version : String
  resource : String
deriving DecidableEq

/-- Go `GroupVersion.WithResource(resource)`. -/
def GroupVersion.withResource (gv : GroupVersion) (resource : String) :
    GroupVersionResource :=
  ⟨gv.group, gv.version, resource⟩

/-- Go `metav1.APIResource`; only the fields the code reads. -/
structure APIResource where
  name : String
  kind : String
deriving DecidableEq

/-- Go `metav1.APIResourceList`. -/
structure APIResourceList where
  apiResources : List APIResource
deriving DecidableEq

/-- Go `error` values produced or passed along by this file. -/
inductive Err where
  /-- An arbitrary error coming out of the external library. -/
  | underlying (id : Nat)
  /-- Go `fmt.Errorf("unable to fetch resource description for %s: %v", gv, err)`. -/
  | unableToFetch (gv : GroupVersion) (e : Err)
  /-- Go `fmt.Errorf("Server is unable to handle %s", gvk)`. -/
  | serverUnableToHandle (gvk : GroupVersionKind)
  /-- Error returned by `meta.Accessor` on an object without object metadata. -/
  | accessorError
  /-- Error returned by `dynamic.NewForConfig`. -/
  | newForConfigError (id : Nat)
deriving DecidableEq

/-- A Go `(value, error)` result where the value is a pointer: `none` is nil. -/
abbrev GoRes (α : Type) : Type := Option α × Option Err

/-- The wrapped `discovery.DiscoveryInterface`: for each operation, the stream
of responses its successive invocations produce (indexed by how many times the
operation has been invoked so far).  `serverResourcesForGV` is additionally
indexed by the `groupVersion` argument. -/
structure Underlying where
  serverGroupsRes : Nat → GoRes APIGroupList
  serverResourcesForGVRes : String → Nat → GoRes APIResourceList
  serverResourcesRes : Nat → GoRes (List (Option APIResourceList))
  serverPreferredResourcesRes : Nat → GoRes (List (Option APIResourceList))
  serverPreferredNamespacedResourcesRes : Nat → GoRes (List (Option APIResourceList))
  serverVersionRes : Nat → GoRes VersionInfo
  openAPISchemaRes : Nat → GoRes Document
  restClientRes : Nat → RESTIface

/-- The mutable fields of `memcachedDiscoveryClient`, together with one
invocation counter per operation of the underlying client.  A Go map with
pointer values is a total function to `Option`: a missing key and a stored
nil pointer are both `none`, which is faithful because the code only ever
tests `!= nil` on looked-up values. -/
structure MemState where
  servergroups : Option APIGroupList
  serverresources : String → Option APIResourceList
  schemas : String → Option Resources
  schema : Option Document
  sgCalls : Nat
  srfgvCalls : String → Nat
  srCalls : Nat
  sprCalls : Nat
  spnrCalls : Nat
  svCalls : Nat
  oasCalls : Nat
  restCalls : Nat

/-- Go `Fresh()`: unconditionally `true`. -/
def Fresh (_ : MemState) : Bool :=
  true

/-- Go `Invalidate()`: clear `servergroups`, replace `serverresources` and
`schemas` with fresh empty maps; `schema` and the underlying client are
untouched. -/
def Invalidate (s : MemState) : MemState :=
  { s with
    servergroups := none
    serverresources := fun _ => none
    schemas := fun _ => none }

/-- Go `NewMemcachedDiscoveryClient`: a zero-valued struct followed by
`Invalidate()`. -/
def NewMemcachedDiscoveryClient : MemState :=
  Invalidate
    { servergroups := none
      serverresources := fun _ => none
      schemas := fun _ => none
      schema := none
      sgCalls := 0
      srfgvCalls := fun _ => 0
      srCalls := 0
      sprCalls := 0
      spnrCalls := 0
      svCalls := 0
      oasCalls := 0
      restCalls := 0 }

/-- Go `ServerGroups()`: return the cached pointer when non-nil; otherwise call
the underlying client, store its value (even a nil one) and return the stored
value together with the error. -/
def ServerGroups (u : Underlying) (s : MemState) : GoRes APIGroupList × MemState :=
  match s.servergroups with
  | some v => ((some v, none), s)
  | none =>
    let r := u.serverGroupsRes s.sgCalls
    ((r.1, r.2), { s with servergroups := r.1, sgCalls := s.sgCalls + 1 })

/-- Go `ServerResourcesForGroupVersion(groupVersion)`: return the map entry when
non-nil; otherwise call the underlying client, store its value under the key
(even a nil one) and return the stored value together with the error. -/
def ServerResourcesForGroupVersion (u : Underlying) (s : MemState)
    (groupVersion : String) : GoRes APIResourceList × MemState :=
  match s.serverresources groupVersion with
  | some v => ((some v, none), s)
  | none =>
    let r := u.serverResourcesForGVRes groupVersion (s.srfgvCalls groupVersion)
    ((r.1, r.2),
      { s with
        serverresources := fun k => if k = groupVersion then r.1 else s.serverresources k
        srfgvCalls := fun k =>
          if k = groupVersion then s.srfgvCalls groupVersion + 1 else s.srfgvCalls k })

/-- Go `ServerResources()`: pure delegation. -/
def ServerResources (u : Underlying) (s : MemState) :
    GoRes (List (Option APIResourceList)) × MemState :=
  (u.serverResourcesRes s.srCalls, { s with srCalls := s.srCalls + 1 })

/-- Go `ServerPreferredResources()`: pure delegation. -/
def ServerPreferredResources (u : Underlying) (s : MemState) :
    GoRes (List (Option APIResourceList)) × MemState :=
  (u.serverPreferredResourcesRes s.sprCalls, { s with sprCalls := s.sprCalls + 1 })

/-- Go `ServerPreferredNamespacedResources()`: pure delegation. -/
def ServerPreferredNamespacedResources (u : Underlying) (s : MemState) :
    GoRes (List (Option APIResourceList)) × MemState :=
  (u.serverPreferredNamespacedResourcesRes s.spnrCalls,
    { s with spnrCalls := s.spnrCalls + 1 })

/-- Go `ServerVersion()`: pure delegation. -/
def ServerVersion (u : Underlying) (s : MemState) : GoRes VersionInfo × MemState :=
  (u.serverVersionRes s.svCalls, { s with svCalls := s.svCalls + 1 })

/-- Go `RESTClient()`: pure delegation (the Go signature has no error). -/
def RESTClient (u : Underlying) (s : MemState) : RESTIface × MemState :=
  (u.restClientRes s.restCalls, { s with restCalls := s.restCalls + 1 })

/-- Go `OpenAPISchema()`: return the cached document when non-nil; otherwise call
the underlying client; on error return `(nil, err)` without storing anything,
on success store and return the document. -/
def OpenAPISchema (u : Underlying) (s : MemState) : GoRes Document × MemState :=
  match s.schema with
  | some v => ((some v, none), s)
  | none =>
    let r := u.openAPISchemaRes s.oasCalls
    let s' := { s with oasCalls := s.oasCalls + 1 }
    match r.2 with
    | some e => ((none, some e), s')
    | none => ((r.1, none), { s' with schema := r.1 })

/-- The public operations of the decorator, for reasoning about arbitrary
call sequences. -/
inductive Op where
  | fresh
  | invalidate
  | restClient
  | serverGroups
  | serverResourcesForGroupVersion (gv : String)
  | serverResources
  | serverPreferredResources
  | serverPreferredNamespacedResources
  | serverVersion
  | openAPISchema
deriving DecidableEq

/-- The state after performing one operation. -/
def stepOp (u : Underlying) (s : MemState) : Op → MemState
  | .fresh => s
  | .invalidate => Invalidate s
  | .restClient => (RESTClient u s).2
  | .serverGroups => (ServerGroups u s).2
  | .serverResourcesForGroupVersion gv => (ServerResourcesForGroupVersion u s gv).2
  | .serverResources => (ServerResources u s).2
  | .serverPreferredResources => (ServerPreferredResources u s).2
  | .serverPreferredNamespacedResources => (ServerPreferredNamespacedResources u s).2
  | .serverVersion => (ServerVersion u s).2
  | .openAPISchema => (OpenAPISchema u s).2

/-- The state after performing a sequence of operations, left to right. -/
def runOps (u : Underlying) (s : MemState) : List Op → MemState
  | [] => s
  | op :: ops => runOps u (stepOp u s op) ops

/-! ### The client pool and resource resolution -/

/-- Go `rest.Config`; the two fields the code writes, plus one opaque field
standing for everything else the struct copy carries along. -/
structure Config where
  apiPath : String
  groupVersion : Option GroupVersion
  otherFields : Nat
deriving DecidableEq

/-- Go `ClientPool`. -/
structure ClientPool where
  config : Config
  apiPathResolverFunc : GroupVersionKind → String

/-- Go `NewClientPool`: store a copy of the caller's config. -/
def NewClientPool (config : Config) (apiPathResolverFunc : GroupVersionKind → String) :
    ClientPool :=
  let configCopy := config
  { config := configCopy, apiPathResolverFunc := apiPathResolverFunc }

/-- Go `ClientForGroupVersionKind`: copy the stored config, set `APIPath` and
`GroupVersion` on the copy, and build a dynamic client from it.
`dynamic.NewForConfig` is external, so it is the parameter `newForConfig`.
The second component is the pool after the call: the method only writes to
its local copy, so it is returned unchanged. -/
def ClientForGroupVersionKind (newForConfig : Config → GoRes DynClient)
    (p : ClientPool) (kind : GroupVersionKind) : GoRes DynClient × ClientPool :=
  let gv := kind.groupVersion
  let configCopy := p.config
  let config := { configCopy with
    apiPath := p.apiPathResolverFunc kind
    groupVersion := some gv }
  match newForConfig config with
  | (_, some e) => ((none, some e), p)
  | (client, none) => ((client, none), p)

/-- The object's metadata as observed through `meta.Accessor`. -/
structure ObjectMeta where
  /-- Go `GetNamespace()`. -/
  ns : String
deriving DecidableEq

/-- A `runtime.Object` as this code observes it: its `GroupVersionKind` and
its metadata; `meta := none` models an object on which `meta.Accessor`
fails. -/
structure KubeObject where
  gvk : GroupVersionKind
  meta : Option ObjectMeta

/-- The value of `client.Resource(gvr).Namespace(namespace)`: a record of the
dynamic client and the arguments handed to the two library calls. -/
structure ResourceInterface where
  client : DynClient
  gvr : GroupVersionResource
  ns : String
deriving DecidableEq

/-- The prefix of `l` strictly before the first occurrence of `sep`, paired
with the remainder after it; `none` when `sep` does not occur. -/
def breakAtFirst (sep : Char) : List Char → Option (List Char × List Char)
  | [] => none
  | c :: cs =>
    if c = sep then some ([], cs)
    else
      match breakAtFirst sep cs with
      | none => none
      | some (a, b) => some (c :: a, b)

/-- Splitting worker: `acc` holds the reversed characters of the piece being
assembled. -/
def goSplitCharsAux (sep : Char) : List Char → List Char → List (List Char)
  | [], acc => [acc.reverse]
  | c :: cs, acc =>
    if c = sep then acc.reverse :: goSplitCharsAux sep cs []
    else goSplitCharsAux sep cs (c :: acc)

/-- Go `strings.Split(s, sep)` on character lists (for a one-character
separator): split at every occurrence, keeping empty pieces; the empty string
yields one empty piece. -/
def goSplitChars (sep : Char) (l : List Char) : List (List Char) :=
  goSplitCharsAux sep l []

/-- Go `strings.Split(s, string(sep))`. -/
def goSplit (s : String) (sep : Char) : List String :=
  (goSplitChars sep s.data).map fun l => ⟨l⟩

/-- Go `strings.SplitN(s, string(sep), 2)`: at most two pieces, the second
being everything after the first occurrence of `sep`. -/
def goSplitN2 (s : String) (sep : Char) : List String :=
  match breakAtFirst sep s.data with
  | none => [s]
  | some (a, b) => [⟨a⟩, ⟨b⟩]

/-- Go `serverResourceForGroupVersionKind`: fetch the resource list for the
kind's group/version and return the first entry whose `Kind` matches.  The
outer `Option` is `none` when the Go code would panic (the discovery call
returned a nil list with a nil error and the code dereferences it). -/
def serverResourceForGroupVersionKind (disco : String → GoRes APIResourceList)
    (gvk : GroupVersionKind) : Option (GoRes APIResource) :=
  match disco gvk.groupVersion.toString with
  | (_, some e) => some (none, some (Err.unableToFetch gvk.groupVersion e))
  | (none, none) => none
  | (some resources, none) =>
    match resources.apiResources.find? (fun r => r.kind = gvk.kind) with
    | some r => some (some r, none)
    | none => some (none, some (Err.serverUnableToHandle gvk))

/-- Go `ClientForResource`: build the dynamic client for the object's
GroupVersionKind, resolve its `APIResource`, read the namespace (falling back
to `defNs` when empty), split the resource name on `/` into the plain
resource name and its subresources, and return
`client.Resource(gv.WithResource(name)).Namespace(namespace)` with the
subresources.  The subresources are `none` exactly when Go would leave the
`subresources` slice nil.  The outer `Option` is `none` when the Go code
would panic on a nil pointer. -/
def ClientForResource (newForConfig : Config → GoRes DynClient) (pool : ClientPool)
    (disco : String → GoRes APIResourceList) (obj : KubeObject) (defNs : String) :
    Option (Option ResourceInterface × Option (List String) × Option Err) :=
  let gvk := obj.gvk
  match ClientForGroupVersionKind newForConfig pool gvk with
  | ((_, some e), _) => some (none, none, some e)
  | ((clientOpt, none), _) =>
    match serverResourceForGroupVersionKind disco gvk with
    | none => none
    | some (_, some e) => some (none, none, some e)
    | some (resourceOpt, none) =>
      match obj.meta with
      | none => some (none, none, some Err.accessorError)
      | some m =>
        let namespaceArg := if m.ns = "" then defNs else m.ns
        match resourceOpt, clientOpt with
        | some resource, some client =>
          let resourceTokens := goSplitN2 resource.name '/'
          let name := resourceTokens.headD ""
          let subresources : Option (List String) :=
            if resourceTokens.length > 1 then
              some (goSplit ((resourceTokens.get? 1).getD "") '/')
            else none
          let rc : ResourceInterface :=
            { client := client
              gvr := gvk.groupVersion.withResource name
              ns := namespaceArg }
          some (some rc, subresources, none)
        | _, _ => none

/-! ### Helper lemmas about splitting -/

theorem goSplitCharsAux_break_none {sep : Char} :
    ∀ {l : List Char} (acc : List Char), breakAtFirst sep l = none →
      goSplitCharsAux sep l acc = [acc.reverse ++ l] := by
  intro l
  induction l with
  | nil => intro acc _; simp [goSplitCharsAux]
  | cons c cs ih =>
    intro acc h
    simp only [breakAtFirst] at h
    by_cases hc : c = sep
    · simp [hc] at h
    · simp only [hc, if_false] at h
      rcases hab : breakAtFirst sep cs with _ | ⟨a, b⟩
      · simp [goSplitCharsAux, hc, ih (c :: acc) hab]
      · rw [hab] at h; simp at h

theorem goSplitCharsAux_break_some {sep : Char} :
    ∀ {l a b : List Char} (acc : List Char), breakAtFirst sep l = some (a, b) →
      goSplitCharsAux sep l acc = (acc.reverse ++ a) :: goSplitCharsAux sep b [] := by
  intro l
  induction l with
  | nil => intro a b acc h; simp [breakAtFirst] at h
  | cons c cs ih =>
    intro a b acc h
    simp only [breakAtFirst] at h
    by_cases hc : c = sep
    · simp only [hc, if_true] at h
      obtain ⟨rfl, rfl⟩ : [] = a ∧ cs = b := by
        simpa [Prod.ext_iff] using h
      simp [goSplitCharsAux, hc]
    · simp only [hc, if_false] at h
      rcases hab : breakAtFirst sep cs with _ | ⟨a', b'⟩
      · rw [hab] at h; simp at h
      · rw [hab] at h
        obtain ⟨rfl, rfl⟩ : c :: a' = a ∧ b' = b := by
          simpa [Prod.ext_iff] using h
        simp [goSplitCharsAux, hc, ih (c :: acc) hab]

theorem goSplitChars_break_none {sep : Char} {l : List Char}
    (h : breakAtFirst sep l = none) : goSplitChars sep l = [l] := by
  simpa using goSplitCharsAux_break_none [] h

theorem goSplitChars_break_some {sep : Char} {l a b : List Char}
    (h : breakAtFirst sep l = some (a, b)) :
    goSplitChars sep l = a :: goSplitChars sep b := by
  simpa [goSplitChars] using goSplitCharsAux_break_some [] h

theorem goSplit_break_none {s : String} {sep : Char}
    (h : breakAtFirst sep s.data = none) : goSplit s sep = [s] := by
  simp [goSplit, goSplitChars_break_none h]

theorem goSplit_break_some {s : String} {sep : Char} {a b : List Char}
    (h : breakAtFirst sep s.data = some (a, b)) :
    goSplit s sep = (⟨a⟩ : String) :: goSplit (⟨b⟩ : String) sep := by
  simp [goSplit, goSplitChars_break_some h]

theorem goSplitChars_ne_nil (sep : Char) (l : List Char) :
    goSplitChars sep l ≠ [] := by
  rcases h : breakAtFirst sep l with _ | ⟨a, b⟩
  · simp [goSplitChars_break_none h]
  · simp [goSplitChars_break_some h]


theorem ServerGroups_cached (u : Underlying) (s : MemState) (v : APIGroupList)
    (h : s.servergroups = some v) : ServerGroups u s = ((some v, none), s) := by
  simp [ServerGroups, h]

theorem ServerGroups_success_caches (u : Underlying) (s : MemState) (g : APIGroupList)
    (h : (ServerGroups u s).1 = (some g, none)) :
    (ServerGroups u s).2.servergroups = some g := by
  rw [Prod.ext_iff] at h
  obtain ⟨h1, h2⟩ := h
  rcases hk : s.servergroups with _ | w
  · simp [ServerGroups, hk] at h1 ⊢
    exact h1
  · simp [ServerGroups, hk] at h1 ⊢
    exact h1

theorem OpenAPISchema_cached (u : Underlying) (s : MemState) (v : Document)
    (h : s.schema = some v) : OpenAPISchema u s = ((some v, none), s) := by
  simp [OpenAPISchema, h]

theorem OpenAPISchema_success_caches (u : Underlying) (s : MemState) (d : Document)
    (h : (OpenAPISchema u s).1 = (some d, none)) :
    (OpenAPISchema u s).2.schema = some d := by
  rw [Prod.ext_iff] at h
  obtain ⟨h1, h2⟩ := h
  rcases hk : s.schema with _ | w
  · rcases he : (u.openAPISchemaRes s.oasCalls).2 with _ | e
    · simp [OpenAPISchema, hk, he] at h1 ⊢
      exact h1
    · simp [OpenAPISchema, hk, he] at h1
  · simp [OpenAPISchema, hk] at h1 ⊢
    exact h1

theorem SRFGV_cached (u : Underlying) (s : MemState) (gv : String) (v : APIResourceList)
    (h : s.serverresources gv = some v) :
    ServerResourcesForGroupVersion u s gv = ((some v, none), s) := by
  simp [ServerResourcesForGroupVersion, h]

theorem stepOp_preserves_servergroups (u : Underlying) (s : MemState) (op : Op)
    (hop : op ≠ Op.invalidate) (v : APIGroupList) (h : s.servergroups = some v) :
    (stepOp u s op).servergroups = some v := by
  cases op with
  | fresh => exact h
  | invalidate => exact absurd rfl hop
  | restClient => simpa [stepOp, RESTClient] using h
  | serverGroups => simp [stepOp, ServerGroups, h]
  | serverResourcesForGroupVersion gv =>
    rcases hk : s.serverresources gv with _ | w <;>
      simp [stepOp, ServerResourcesForGroupVersion, hk, h]
  | serverResources => simpa [stepOp, ServerResources] using h
  | serverPreferredResources => simpa [stepOp, ServerPreferredResources] using h
  | serverPreferredNamespacedResources =>
    simpa [stepOp, ServerPreferredNamespacedResources] using h
  | serverVersion => simpa [stepOp, ServerVersion] using h
  | openAPISchema =>
    rcases hk : s.schema with _ | w
    · rcases he : (u.openAPISchemaRes s.oasCalls).2 with _ | e <;>
        simp [stepOp, OpenAPISchema, hk, he, h]
    · simp [stepOp, OpenAPISchema, hk, h]

theorem runOps_preserves_servergroups (u : Underlying) (ops : List Op)
    (hops : Op.invalidate ∉ ops) (s : MemState) (v : APIGroupList)
    (h : s.servergroups = some v) : (runOps u s ops).servergroups = some v := by
  induction ops generalizing s with
  | nil => exact h
  | cons op ops ih =>
    rw [List.mem_cons, not_or] at hops
    exact ih hops.2 _ (stepOp_preserves_servergroups u s op (Ne.symm hops.1) v h)

theorem stepOp_preserves_schema (u : Underlying) (s : MemState) (op : Op)
    (v : Document) (h : s.schema = some v) : (stepOp u s op).schema = some v := by
  cases op with
  | fresh => exact h
  | invalidate => simpa [stepOp, Invalidate] using h
  | restClient => simpa [stepOp, RESTClient] using h
  | serverGroups =>
    rcases hk : s.servergroups with _ | w <;> simp [stepOp, ServerGroups, hk, h]
  | serverResourcesForGroupVersion gv =>
    rcases hk : s.serverresources gv with _ | w <;>
      simp [stepOp, ServerResourcesForGroupVersion, hk, h]
  | serverResources => simpa [stepOp, ServerResources] using h
  | serverPreferredResources => simpa [stepOp, ServerPreferredResources] using h
  | serverPreferredNamespacedResources =>
    simpa [stepOp, ServerPreferredNamespacedResources] using h
  | serverVersion => simpa [stepOp, ServerVersion] using h
  | openAPISchema => simp [stepOp, OpenAPISchema, h]

theorem runOps_preserves_schema (u : Underlying) (ops : List Op) (s : MemState)
    (v : Document) (h : s.schema = some v) : (runOps u s ops).schema = some v := by
  induction ops generalizing s with
  | nil => exact h
  | cons op ops ih => exact ih _ (stepOp_preserves_schema u s op v h)

theorem stepOp_preserves_serverresources_entry (u : Underlying) (s : MemState) (op : Op)
    (hop : op ≠ Op.invalidate) (gv : String) (v : APIResourceList)
    (h : s.serverresources gv = some v) : (stepOp u s op).serverresources gv = some v := by
  cases op with
  | fresh => exact h
  | invalidate => exact absurd rfl hop
  | restClient => simpa [stepOp, RESTClient] using h
  | serverGroups =>
    rcases hk : s.servergroups with _ | w <;> simp [stepOp, ServerGroups, hk, h]
  | serverResourcesForGroupVersion gv' =>
    rcases hk : s.serverresources gv' with _ | w
    · by_cases hgv : gv = gv'
      · subst hgv
        exact absurd h (by simp [hk])
      · simp [stepOp, ServerResourcesForGroupVersion, hk, hgv, h]
    · simp [stepOp, ServerResourcesForGroupVersion, hk, h]
  | serverResources => simpa [stepOp, ServerResources] using h
  | serverPreferredResources => simpa [stepOp, ServerPreferredResources] using h
  | serverPreferredNamespacedResources =>
    simpa [stepOp, ServerPreferredNamespacedResources] using h
  | serverVersion => simpa [stepOp, ServerVersion] using h
  | openAPISchema =>
    rcases hk : s.schema with _ | w
    · rcases he : (u.openAPISchemaRes s.oasCalls).2 with _ | e <;>
        simp [stepOp, OpenAPISchema, hk, he, h]
    · simp [stepOp, OpenAPISchema, hk, h]

theorem runOps_preserves_serverresources_entry (u : Underlying) (ops : List Op)
    (hops : Op.invalidate ∉ ops) (s : MemState) (gv : String) (v : APIResourceList)
    (h : s.serverresources gv = some v) : (runOps u s ops).serverresources gv = some v := by
  induction ops generalizing s with
  | nil => exact h
  | cons op ops ih =>
    rw [List.mem_cons, not_or] at hops
    exact ih hops.2 _
      (stepOp_preserves_serverresources_entry u s op (Ne.symm hops.1) gv v h)

/-! ### Sample data for concrete evaluations -/

/-- An underlying client whose cacheable operations all succeed. -/
def sampleUnderlying : Underlying where
  serverGroupsRes := fun _ => (some ⟨1⟩, none)
  serverResourcesForGVRes := fun _ _ => (some ⟨[⟨"pods/status", "Pod"⟩]⟩, none)
  serverResourcesRes := fun _ => (some [], none)
  serverPreferredResourcesRes := fun _ => (some [], none)
  serverPreferredNamespacedResourcesRes := fun _ => (some [], none)
  serverVersionRes := fun _ => (some ⟨7⟩, none)
  openAPISchemaRes := fun _ => (some ⟨2⟩, none)
  restClientRes := fun _ => ⟨3⟩

/-- An underlying client whose cacheable operations all fail with a nil
value. -/
def sampleUnderlyingFailing : Underlying :=
  { sampleUnderlying with
    serverGroupsRes := fun _ => (none, some (.underlying 9))
    serverResourcesForGVRes := fun _ _ => (none, some (.underlying 9))
    openAPISchemaRes := fun _ => (none, some (.underlying 9)) }

/-- A sample `rest.Config`. -/
def sampleConfig : Config :=
  { apiPath := "", groupVersion := none, otherFields := 5 }

/-- A sample pool built over `sampleConfig`. -/
def samplePool : ClientPool :=
  NewClientPool sampleConfig fun _ => "/apis"

/-- A sample `dynamic.NewForConfig` that always succeeds. -/
def sampleNewForConfig : Config → GoRes DynClient :=
  fun _ => (some ⟨4⟩, none)

/-- A sample discovery interface for resolution. -/
def sampleDisco : String → GoRes APIResourceList :=
  fun _ => (some ⟨[⟨"deployments/scale", "Deployment"⟩, ⟨"pods", "Pod"⟩]⟩, none)

/-- A sample discovery interface that always fails. -/
def sampleDiscoFailing : String → GoRes APIResourceList :=
  fun _ => (none, some (.underlying 9))

/-- A sample object: a namespaceless `Deployment`. -/
def sampleObj : KubeObject :=
  { gvk := ⟨"apps", "v1", "Deployment"⟩, meta := some ⟨""⟩ }

theorem goSplit_ne_nil (s : String) (sep : Char) : goSplit s sep ≠ [] := by
  simp [goSplit, goSplitChars_ne_nil]

/-! ### Claim theorems -/

/-- Claim C1: After one successful `ServerGroups` (resp. `OpenAPISchema`) call —
one returning a non-nil result and a nil error — every later call of the same
operation, across any interleaved operations that do not include
`Invalidate`, returns the same cached value with a nil error and leaves the
state (in particular the underlying-invocation counters) unchanged, i.e. the
underlying client is not invoked. -/
theorem serverGroups_openAPISchema_cached_until_invalidate
    (u : Underlying) (s : MemState) (ops : List Op) (hops : Op.invalidate ∉ ops) :
    (∀ g, (ServerGroups u s).1 = (some g, none) →
        ServerGroups u (runOps u (ServerGroups u s).2 ops)
          = ((some g, none), runOps u (ServerGroups u s).2 ops)) ∧
    (∀ d, (OpenAPISchema u s).1 = (some d, none) →
        OpenAPISchema u (runOps u (OpenAPISchema u s).2 ops)
          = ((some d, none), runOps u (OpenAPISchema u s).2 ops)) := by
  constructor
  · intro g hg
    exact ServerGroups_cached u _ g
      (runOps_preserves_servergroups u ops hops _ g (ServerGroups_success_caches u s g hg))
  · intro d hd
    exact OpenAPISchema_cached u _ d
      (runOps_preserves_schema u ops _ d (OpenAPISchema_success_caches u s d hd))

/-- Witness for C1 at a concrete client, state and operation sequence. -/
theorem serverGroups_openAPISchema_cached_until_invalidate_witness :
    ServerGroups sampleUnderlying
        (runOps sampleUnderlying
          (ServerGroups sampleUnderlying NewMemcachedDiscoveryClient).2
          [Op.serverVersion, Op.fresh])
      = ((some ⟨1⟩, none),
          runOps sampleUnderlying
            (ServerGroups sampleUnderlying NewMemcachedDiscoveryClient).2
            [Op.serverVersion, Op.fresh]) ∧
    OpenAPISchema sampleUnderlying
        (runOps sampleUnderlying
          (OpenAPISchema sampleUnderlying NewMemcachedDiscoveryClient).2
          [Op.serverVersion, Op.fresh])
      = ((some ⟨2⟩, none),
          runOps sampleUnderlying
            (OpenAPISchema sampleUnderlying NewMemcachedDiscoveryClient).2
            [Op.serverVersion, Op.fresh]) :=
  ⟨(serverGroups_openAPISchema_cached_until_invalidate sampleUnderlying
      NewMemcachedDiscoveryClient [Op.serverVersion, Op.fresh] (by decide)).1 ⟨1⟩ rfl,
   (serverGroups_openAPISchema_cached_until_invalidate sampleUnderlying
      NewMemcachedDiscoveryClient [Op.serverVersion, Op.fresh] (by decide)).2 ⟨2⟩ rfl⟩

/-- Claim C2: `ServerResourcesForGroupVersion` memoizes per key: a call on a
missing (nil) entry stores the underlying client's value under that key and
invokes the underlying client once; while the stored entry is non-nil, any
later call with the same key — across interleaved operations without
`Invalidate` — returns the stored list with a nil error and leaves the state
unchanged; `Invalidate` empties the map and the next call bumps the
underlying-invocation counter again. -/
theorem serverResourcesForGroupVersion_memoizes_per_key
    (u : Underlying) (s : MemState) (gv : String) :
    (s.serverresources gv = none →
        (ServerResourcesForGroupVersion u s gv).2.serverresources gv
            = (u.serverResourcesForGVRes gv (s.srfgvCalls gv)).1
          ∧ (ServerResourcesForGroupVersion u s gv).2.srfgvCalls gv
            = s.srfgvCalls gv + 1) ∧
    (∀ v ops, s.serverresources gv = some v → Op.invalidate ∉ ops →
        ServerResourcesForGroupVersion u (runOps u s ops) gv
          = ((some v, none), runOps u s ops)) ∧
    (∀ k, (Invalidate s).serverresources k = none) ∧
    ((ServerResourcesForGroupVersion u (Invalidate s) gv).2.srfgvCalls gv
        = (Invalidate s).srfgvCalls gv + 1) := by
  refine ⟨?_, ?_, fun k => rfl, ?_⟩
  · intro h
    constructor <;> simp [ServerResourcesForGroupVersion, h]
  · intro v ops hv hops
    exact SRFGV_cached u _ gv v
      (runOps_preserves_serverresources_entry u ops hops s gv v hv)
  · simp [ServerResourcesForGroupVersion, Invalidate]

/-- Witness for C2 at a concrete client, state, key and operation sequence. -/
theorem serverResourcesForGroupVersion_memoizes_per_key_witness :
    (ServerResourcesForGroupVersion sampleUnderlying NewMemcachedDiscoveryClient
        "apps/v1").2.serverresources "apps/v1"
      = some ⟨[⟨"pods/status", "Pod"⟩]⟩ ∧
    ServerResourcesForGroupVersion sampleUnderlying
        (runOps sampleUnderlying
          (ServerResourcesForGroupVersion sampleUnderlying
            NewMemcachedDiscoveryClient "apps/v1").2 [Op.fresh]) "apps/v1"
      = ((some ⟨[⟨"pods/status", "Pod"⟩]⟩, none),
          runOps sampleUnderlying
            (ServerResourcesForGroupVersion sampleUnderlying
              NewMemcachedDiscoveryClient "apps/v1").2 [Op.fresh]) := by
  constructor
  · exact ((serverResourcesForGroupVersion_memoizes_per_key sampleUnderlying
      NewMemcachedDiscoveryClient "apps/v1").1 rfl).1
  · exact (serverResourcesForGroupVersion_memoizes_per_key sampleUnderlying
      (ServerResourcesForGroupVersion sampleUnderlying
        NewMemcachedDiscoveryClient "apps/v1").2 "apps/v1").2.1
      ⟨[⟨"pods/status", "Pod"⟩]⟩ [Op.fresh] rfl (by decide)

/-- Claim C6: `ServerResources`, `ServerPreferredResources`,
`ServerPreferredNamespacedResources`, `ServerVersion` and `RESTClient` are
pure delegations: each returns exactly the underlying client's next response
for that operation, and changes nothing in the state except that operation's
invocation counter (in particular no cache field). -/
theorem delegated_operations_pure_passthrough (u : Underlying) (s : MemState) :
    (ServerResources u s).1 = u.serverResourcesRes s.srCalls ∧
    (ServerResources u s).2 = { s with srCalls := s.srCalls + 1 } ∧
    (ServerPreferredResources u s).1 = u.serverPreferredResourcesRes s.sprCalls ∧
    (ServerPreferredResources u s).2 = { s with sprCalls := s.sprCalls + 1 } ∧
    (ServerPreferredNamespacedResources u s).1
      = u.serverPreferredNamespacedResourcesRes s.spnrCalls ∧
    (ServerPreferredNamespacedResources u s).2
      = { s with spnrCalls := s.spnrCalls + 1 } ∧
    (ServerVersion u s).1 = u.serverVersionRes s.svCalls ∧
    (ServerVersion u s).2 = { s with svCalls := s.svCalls + 1 } ∧
    (RESTClient u s).1 = u.restClientRes s.restCalls ∧
    (RESTClient u s).2 = { s with restCalls := s.restCalls + 1 } :=
  ⟨rfl, rfl, rfl, rfl, rfl, rfl, rfl, rfl, rfl, rfl⟩

/-- Claim C8: `Invalidate` clears `servergroups` and empties the
`serverresources` and `schemas` maps but leaves `schema` unchanged; hence
once `OpenAPISchema` has succeeded, every later `OpenAPISchema` call returns
the cached document across ANY operation sequence, `Invalidate` calls
included. -/
theorem invalidate_preserves_openapi_schema_cache (u : Underlying) (s : MemState) :
    (Invalidate s).servergroups = none ∧
    (∀ k, (Invalidate s).serverresources k = none) ∧
    (∀ k, (Invalidate s).schemas k = none) ∧
    (Invalidate s).schema = s.schema ∧
    (∀ d ops, (OpenAPISchema u s).1 = (some d, none) →
        OpenAPISchema u (runOps u (OpenAPISchema u s).2 ops)
          = ((some d, none), runOps u (OpenAPISchema u s).2 ops)) := by
  refine ⟨rfl, fun k => rfl, fun k => rfl, rfl, ?_⟩
  intro d ops hd
  exact OpenAPISchema_cached u _ d
    (runOps_preserves_schema u ops _ d (OpenAPISchema_success_caches u s d hd))

/-- Witness for C8: the schema survives an interleaved `Invalidate`. -/
theorem invalidate_preserves_openapi_schema_cache_witness :
    OpenAPISchema sampleUnderlying
        (runOps sampleUnderlying
          (OpenAPISchema sampleUnderlying NewMemcachedDiscoveryClient).2
          [Op.invalidate, Op.invalidate])
      = ((some ⟨2⟩, none),
          runOps sampleUnderlying
            (OpenAPISchema sampleUnderlying NewMemcachedDiscoveryClient).2
            [Op.invalidate, Op.invalidate]) :=
  (invalidate_preserves_openapi_schema_cache sampleUnderlying
    NewMemcachedDiscoveryClient).2.2.2.2 ⟨2⟩ [Op.invalidate, Op.invalidate] rfl

/-- Claim C9: When the underlying call returns a nil value and a non-nil error,
the decorator returns that error, the corresponding cache slot stays nil, and
the next call of the same operation (same key for
`ServerResourcesForGroupVersion`) invokes the underlying client again (its
counter reaches `+2` after the two calls): errors are never cached. -/
theorem failed_underlying_results_not_cached (u : Underlying) (s : MemState) :
    (∀ e, s.servergroups = none → u.serverGroupsRes s.sgCalls = (none, some e) →
        (ServerGroups u s).1 = (none, some e) ∧
        (ServerGroups u s).2.servergroups = none ∧
        (ServerGroups u (ServerGroups u s).2).2.sgCalls = s.sgCalls + 2) ∧
    (∀ gv e, s.serverresources gv = none →
        u.serverResourcesForGVRes gv (s.srfgvCalls gv) = (none, some e) →
        (ServerResourcesForGroupVersion u s gv).1 = (none, some e) ∧
        (ServerResourcesForGroupVersion u s gv).2.serverresources gv = none ∧
        (ServerResourcesForGroupVersion u
            (ServerResourcesForGroupVersion u s gv).2 gv).2.srfgvCalls gv
          = s.srfgvCalls gv + 2) ∧
    (∀ e, s.schema = none → u.openAPISchemaRes s.oasCalls = (none, some e) →
        (OpenAPISchema u s).1 = (none, some e) ∧
        (OpenAPISchema u s).2.schema = none ∧
        (OpenAPISchema u (OpenAPISchema u s).2).2.oasCalls = s.oasCalls + 2) := by
  refine ⟨?_, ?_, ?_⟩
  · intro e h he
    refine ⟨?_, ?_, ?_⟩ <;> simp [ServerGroups, h, he]
  · intro gv e h he
    refine ⟨?_, ?_, ?_⟩ <;> simp [ServerResourcesForGroupVersion, h, he]
  · intro e h he
    refine ⟨by simp [OpenAPISchema, h, he], by simp [OpenAPISchema, h, he], ?_⟩
    rcases h2 : (u.openAPISchemaRes (s.oasCalls + 1)).2 with _ | e2 <;>
      simp [OpenAPISchema, h, he, h2]

/-- Witness for C9 at a concrete failing client and the fresh state. -/
theorem failed_underlying_results_not_cached_witness :
    (ServerGroups sampleUnderlyingFailing NewMemcachedDiscoveryClient).1
        = (none, some (.underlying 9)) ∧
    (ServerGroups sampleUnderlyingFailing
        (ServerGroups sampleUnderlyingFailing NewMemcachedDiscoveryClient).2).2.sgCalls
        = 2 ∧
    (OpenAPISchema sampleUnderlyingFailing NewMemcachedDiscoveryClient).1
        = (none, some (.underlying 9)) ∧
    (ServerResourcesForGroupVersion sampleUnderlyingFailing
        NewMemcachedDiscoveryClient "v1").2.serverresources "v1" = none := by
  have h := failed_underlying_results_not_cached sampleUnderlyingFailing
    NewMemcachedDiscoveryClient
  exact ⟨(h.1 (.underlying 9) rfl rfl).1, (h.1 (.underlying 9) rfl rfl).2.2,
    (h.2.2 (.underlying 9) rfl rfl).1, (h.2.1 "v1" (.underlying 9) rfl rfl).2.1⟩

/-- Claim C3: On the success path, `ClientForResource` resolves via the first
`APIResource` of the group/version's discovery list whose `Kind` matches the
object's: the resource name passed to the dynamic client is the part of that
resource's `Name` before the first `/`, the subresources are the remaining
`/`-separated segments (`none`, i.e. a nil slice, when `Name` has no `/`),
and the client is namespaced to the object's namespace, or to `defNs` when
that namespace is empty. -/
theorem clientForResource_resolves_first_matching_resource
    (nfc : Config → GoRes DynClient) (pool : ClientPool)
    (disco : String → GoRes APIResourceList) (obj : KubeObject) (defNs : String)
    (client : DynClient) (rl : APIResourceList) (r : APIResource) (m : ObjectMeta)
    (hc : nfc { pool.config with
        apiPath := pool.apiPathResolverFunc obj.gvk
        groupVersion := some obj.gvk.groupVersion } = (some client, none))
    (hd : disco obj.gvk.groupVersion.toString = (some rl, none))
    (hr : rl.apiResources.find? (fun a => a.kind = obj.gvk.kind) = some r)
    (hm : obj.meta = some m) :
    ClientForResource nfc pool disco obj defNs =
      some (some
        { client := client
          gvr := obj.gvk.groupVersion.withResource ((goSplit r.name '/').headD "")
          ns := if m.ns = "" then defNs else m.ns },
        (if (goSplit r.name '/').length ≤ 1 then none
          else some (goSplit r.name '/').tail),
        none) := by
  have hfull : ClientForGroupVersionKind nfc pool obj.gvk = ((some client, none), pool) := by
    simp [ClientForGroupVersionKind, hc]
  have hsr : serverResourceForGroupVersionKind disco obj.gvk = some (some r, none) := by
    simp [serverResourceForGroupVersionKind, hd, hr]
  rcases hb : breakAtFirst '/' r.name.data with _ | ⟨a, b⟩
  · simp [ClientForResource, hfull, hsr, hm, goSplitN2, hb, goSplit_break_none hb]
  · have hlen : ¬(goSplit r.name '/').length ≤ 1 := by
      rw [goSplit_break_some hb]
      have h1 : 0 < (goSplit (⟨b⟩ : String) '/').length :=
        List.length_pos.mpr (goSplit_ne_nil _ _)
      simp only [List.length_cons]
      omega
    simp [ClientForResource, hfull, hsr, hm, goSplitN2, hb, goSplit_break_some hb, hlen,
      goSplit_ne_nil]

/-- Witness for C3: resolving a namespaceless `Deployment` against a list
whose first matching resource is `deployments/scale`. -/
theorem clientForResource_resolves_first_matching_resource_witness :
    ClientForResource sampleNewForConfig samplePool sampleDisco sampleObj "default"
      = some (some
          { client := ⟨4⟩
            gvr := ⟨"apps", "v1", "deployments"⟩
            ns := "default" },
          some ["scale"], none) :=
  (clientForResource_resolves_first_matching_resource sampleNewForConfig samplePool
      sampleDisco sampleObj "default" ⟨4⟩
      ⟨[⟨"deployments/scale", "Deployment"⟩, ⟨"pods", "Pod"⟩]⟩
      ⟨"deployments/scale", "Deployment"⟩ ⟨""⟩ rfl rfl (by decide) rfl).trans
    (by decide)

/-- Claim C4: Provided the discovery call never returns a nil list together
with a nil error, `serverResourceForGroupVersionKind` returns an error
exactly when the discovery call fails or no entry of the returned list has
the requested `Kind`; when an entry matches it returns the first such entry
with a nil error; and `ClientForResource` propagates a resolution error `e`
as `(nil, nil, e)` whenever the pool produced its client without error. -/
theorem serverResourceForGroupVersionKind_error_characterization
    (disco : String → GoRes APIResourceList) (gvk : GroupVersionKind)
    (hnp : (disco gvk.groupVersion.toString).2 = none →
        (disco gvk.groupVersion.toString).1 ≠ none) :
    ((∃ e, serverResourceForGroupVersionKind disco gvk = some (none, some e)) ↔
        ((disco gvk.groupVersion.toString).2 ≠ none ∨
          ∃ rl, (disco gvk.groupVersion.toString).1 = some rl ∧
            rl.apiResources.find? (fun a => a.kind = gvk.kind) = none)) ∧
    (∀ rl r, disco gvk.groupVersion.toString = (some rl, none) →
        rl.apiResources.find? (fun a => a.kind = gvk.kind) = some r →
        serverResourceForGroupVersionKind disco gvk = some (some r, none)) ∧
    (∀ nfc pool obj defNs e c, obj.gvk = gvk →
        (ClientForGroupVersionKind nfc pool gvk).1 = (c, none) →
        serverResourceForGroupVersionKind disco gvk = some (none, some e) →
        ClientForResource nfc pool disco obj defNs = some (none, none, some e)) := by
  refine ⟨?_, ?_, ?_⟩
  · constructor
    · rintro ⟨e, he⟩
      rcases hgv : disco gvk.groupVersion.toString with ⟨v, verr⟩
      rcases verr with _ | e'
      · rcases v with _ | rl
        · exact absurd (by simp [hgv]) (hnp (by simp [hgv]))
        · right
          refine ⟨rl, by simp [hgv], ?_⟩
          rcases hf : rl.apiResources.find? (fun a => a.kind = gvk.kind) with _ | r
          · exact hf
          · rw [serverResourceForGroupVersionKind, hgv] at he
            simp [hf, Prod.ext_iff] at he
      · left; simp [hgv]
    · intro h
      rcases hgv : disco gvk.groupVersion.toString with ⟨v, verr⟩
      rcases verr with _ | e'
      · rcases h with h1 | ⟨rl, hrl, hf⟩
        · exact absurd (by simp [hgv]) h1
        · have hv : v = some rl := by simpa [hgv] using hrl
          subst hv
          exact ⟨Err.serverUnableToHandle gvk,
            by rw [serverResourceForGroupVersionKind, hgv]; simp [hf]⟩
      · exact ⟨Err.unableToFetch gvk.groupVersion e',
          by rw [serverResourceForGroupVersionKind, hgv]; cases v <;> rfl⟩
  · intro rl r hgv hf
    rw [serverResourceForGroupVersionKind, hgv]
    simp [hf]
  · intro nfc pool obj defNs e c hobj hcl hsr
    subst hobj
    have h2 : (ClientForGroupVersionKind nfc pool obj.gvk).2 = pool := by
      rcases hnf : nfc { pool.config with
          apiPath := pool.apiPathResolverFunc obj.gvk
          groupVersion := some obj.gvk.groupVersion } with ⟨v, _ | e'⟩ <;>
        simp [ClientForGroupVersionKind, hnf]
    have hfull : ClientForGroupVersionKind nfc pool obj.gvk = ((c, none), pool) := by
      calc ClientForGroupVersionKind nfc pool obj.gvk
          = ((ClientForGroupVersionKind nfc pool obj.gvk).1,
              (ClientForGroupVersionKind nfc pool obj.gvk).2) := rfl
        _ = ((c, none), pool) := by rw [hcl, h2]
    simp [ClientForResource, hfull, hsr]

/-- Witness for C4: a successful resolution and a propagated discovery
failure, at concrete inputs. -/
theorem serverResourceForGroupVersionKind_error_characterization_witness :
    serverResourceForGroupVersionKind sampleDisco ⟨"apps", "v1", "Deployment"⟩
        = some (some ⟨"deployments/scale", "Deployment"⟩, none) ∧
    ClientForResource sampleNewForConfig samplePool sampleDiscoFailing sampleObj
        "default"
      = some (none, none, some (.unableToFetch ⟨"apps", "v1"⟩ (.underlying 9))) := by
  constructor
  · exact (serverResourceForGroupVersionKind_error_characterization sampleDisco
      ⟨"apps", "v1", "Deployment"⟩ (fun _ => by decide)).2.1
      ⟨[⟨"deployments/scale", "Deployment"⟩, ⟨"pods", "Pod"⟩]⟩
      ⟨"deployments/scale", "Deployment"⟩ rfl (by decide)
  · exact (serverResourceForGroupVersionKind_error_characterization sampleDiscoFailing
      ⟨"apps", "v1", "Deployment"⟩ (fun h => by simp [sampleDiscoFailing] at h)).2.2
      sampleNewForConfig samplePool sampleObj "default"
      (.unableToFetch ⟨"apps", "v1"⟩ (.underlying 9)) (some ⟨4⟩) rfl rfl (by decide)

/-- Claim C5: `ClientForGroupVersionKind` hands `dynamic.NewForConfig` a copy
of the pool's stored config whose `APIPath` is the resolver applied to the
kind and whose `GroupVersion` is the kind's group/version, returning the
resulting client, or the construction error otherwise; the pool itself comes
back unchanged, and `NewClientPool` stores exactly the caller's config and
resolver. -/
theorem clientForGroupVersionKind_uses_config_copy
    (nfc : Config → GoRes DynClient) (p : ClientPool) (kind : GroupVersionKind) :
    (∀ c, nfc { p.config with
          apiPath := p.apiPathResolverFunc kind
          groupVersion := some kind.groupVersion } = (some c, none) →
        ClientForGroupVersionKind nfc p kind = ((some c, none), p)) ∧
    (∀ v e, nfc { p.config with
          apiPath := p.apiPathResolverFunc kind
          groupVersion := some kind.groupVersion } = (v, some e) →
        ClientForGroupVersionKind nfc p kind = ((none, some e), p)) ∧
    (ClientForGroupVersionKind nfc p kind).2 = p ∧
    (∀ cfg f, NewClientPool cfg f = { config := cfg, apiPathResolverFunc := f }) := by
  refine ⟨?_, ?_, ?_, fun cfg f => rfl⟩
  · intro c hc
    simp [ClientForGroupVersionKind, hc]
  · intro v e he
    simp [ClientForGroupVersionKind, he]
  · rcases hnf : nfc { p.config with
        apiPath := p.apiPathResolverFunc kind
        groupVersion := some kind.groupVersion } with ⟨v, _ | e⟩ <;>
      simp [ClientForGroupVersionKind, hnf]

/-- Witness for C5 at a concrete pool and kind. -/
theorem clientForGroupVersionKind_uses_config_copy_witness :
    ClientForGroupVersionKind sampleNewForConfig samplePool
        ⟨"apps", "v1", "Deployment"⟩
      = ((some ⟨4⟩, none), samplePool) :=
  (clientForGroupVersionKind_uses_config_copy sampleNewForConfig samplePool
    ⟨"apps", "v1", "Deployment"⟩).1 ⟨4⟩ rfl

/-- Claim C10: `Fresh` returns `true` in every state, including right after
construction and right after any `Invalidate`. -/
theorem fresh_always_returns_true :
    Fresh NewMemcachedDiscoveryClient = true ∧
    (∀ s, Fresh (Invalidate s) = true) ∧
    (∀ s, Fresh s = true) :=
  ⟨rfl, fun _ => rfl, fun _ => rfl⟩

end KubecfgClient
